import Mathlib

set_option maxRecDepth 100000

/-!
Shallow embedding of the ecospace-backend token codec, rate limiter and
validation route (src/app/api/validate-token/route.ts, src/app/utils/prom.ts,
src/app/utils/validation.ts), together with proofs about the claims of the
specification.  JavaScript strings are modelled as `List Char`; JavaScript
numbers that hold integral values (timestamps, counters, limits) are modelled
as exact integers (`Nat`/`Int`).
-/

namespace EcoSpace

/-- Convenience conversion from a Lean string literal to the `List Char`
representation used for JavaScript strings throughout this development. -/
def jstr (s : String) : List Char := s.data

/-- Embedding of `token.split("-")` (split on every single dash, keeping empty
segments, as JavaScript `String.prototype.split` with a one-character
separator does). -/
def splitDash : List Char → List (List Char)
  | [] => [[]]
  | c :: cs =>
    if c = '-' then [] :: splitDash cs
    else
      match splitDash cs with
      | [] => [[c]]
      | g :: gs => (c :: g) :: gs

/-- ASCII lower-casing of one character, the fragment of
`String.prototype.toLowerCase` relevant to the tier membership test (the tier
is compared against the ASCII strings "premium", "pro", "enterprise"; no
non-ASCII character can lower-case to a plain ASCII letter without changing
the string length). -/
def jsToLowerChar (c : Char) : Char :=
  if 'A' ≤ c ∧ c ≤ 'Z' then Char.ofNat (c.toNat + 32) else c

/-- Embedding of `s.toLowerCase()`. -/
def jsToLower (s : List Char) : List Char := s.map jsToLowerChar

/-- Number of UTF-16 code units of one character (JavaScript's
`String.prototype.length` counts code units). -/
def utf16Len (c : Char) : Nat := if c.toNat < 65536 then 1 else 2

/-- Embedding of JavaScript `s.length`. -/
def jsLength (s : List Char) : Nat := (s.map utf16Len).sum

/-- Digit character used by `Number.prototype.toString(radix)`:
`0`-`9` then `a`-`z`. -/
def digitChar (n : Nat) : Char :=
  if n < 10 then Char.ofNat (48 + n) else Char.ofNat (87 + n)

/-- Value of a base-36 digit character as read by `parseInt(_, 36)`
(case-insensitive), `none` if the character is not a base-36 digit. -/
def digitVal36 (c : Char) : Option Nat :=
  if 48 ≤ c.toNat ∧ c.toNat ≤ 57 then some (c.toNat - 48)
  else if 97 ≤ c.toNat ∧ c.toNat ≤ 122 then some (c.toNat - 87)
  else if 65 ≤ c.toNat ∧ c.toNat ≤ 90 then some (c.toNat - 55)
  else none

/-- Whether a character is a base-36 digit. -/
def isDigit36 (c : Char) : Bool := (digitVal36 c).isSome

/-- Big-endian evaluation of a digit string in base `b`. -/
def digitsValBase (b : Nat) (ds : List Char) : Nat :=
  ds.foldl (fun a c => a * b + (digitVal36 c).getD 0) 0

/-- The WhiteSpace and LineTerminator code points skipped by `parseInt`. -/
def jsIsWhitespace (c : Char) : Bool :=
  [9, 10, 11, 12, 13, 32, 160, 5760, 8192, 8193, 8194, 8195, 8196, 8197, 8198,
   8199, 8200, 8201, 8202, 8232, 8233, 8239, 8287, 12288, 65279].contains c.toNat

/-- Longest prefix of base-36 digits, evaluated; `none` when there is no
digit (`parseInt` returns `NaN` then). -/
def parseBase36Digits (t : List Char) : Option Nat :=
  let ds := t.takeWhile isDigit36
  if ds = [] then none else some (digitsValBase 36 ds)

/-- Embedding of `parseInt(s, 36)`: skip leading whitespace, read an optional
sign, then the longest run of base-36 digits; `none` models `NaN`.  The
JavaScript result is a floating-point number; it is modelled as an exact
integer (exact for every value `parseToken` can see, since base-36 timestamps
of realistic length are far below 2^53). -/
def parseIntBase36 (s : List Char) : Option Int :=
  let t := s.dropWhile jsIsWhitespace
  if t.headD ' ' = '-' then (parseBase36Digits t.tail).map (fun v => -Int.ofNat v)
  else if t.headD ' ' = '+' then (parseBase36Digits t.tail).map Int.ofNat
  else (parseBase36Digits t).map Int.ofNat

/-- Fuel-driven digit loop of `Number.prototype.toString(radix)` for a
non-negative integral number (least-significant digit is computed first and
prepended, so the output is most-significant first). -/
def natToStrBaseAux (b : Nat) : Nat → Nat → List Char → List Char
  | 0, _, acc => acc
  | fuel + 1, n, acc =>
    if n < b then digitChar n :: acc
    else natToStrBaseAux b fuel (n / b) (digitChar (n % b) :: acc)

/-- Embedding of `n.toString(b)` for a non-negative integral number `n`. -/
def natToStrBase (b n : Nat) : List Char := natToStrBaseAux b (n + 1) n []

/-- Embedding of `timestamp.toString(36)` used by `generateToken`. -/
def natToBase36 (n : Nat) : List Char := natToStrBase 36 n

/-- Embedding of decimal template interpolation used in rate-limit keys. -/
def natToDec (n : Nat) : List Char := natToStrBase 10 n

/-- UTF-8 encoding of one unicode scalar value (`Buffer.from(s, "utf8")`). -/
def utf8Char (c : Char) : List Nat :=
  if c.toNat < 128 then [c.toNat]
  else if c.toNat < 2048 then [192 + c.toNat / 64, 128 + c.toNat % 64]
  else if c.toNat < 65536 then
    [224 + c.toNat / 4096, 128 + (c.toNat / 64) % 64, 128 + c.toNat % 64]
  else
    [240 + c.toNat / 262144, 128 + (c.toNat / 4096) % 64,
     128 + (c.toNat / 64) % 64, 128 + c.toNat % 64]

/-- UTF-8 byte sequence of a string, as `Buffer.from(s, "utf8")` and the
input consumed by `crypto.createHmac(...).update(s)` produce. -/
def strUtf8 (s : List Char) : List Nat := (s.map utf8Char).flatten

/-- Decidable equality for `Except`, needed to evaluate parse results on
concrete inputs. -/
instance {ε α : Type} [DecidableEq ε] [DecidableEq α] : DecidableEq (Except ε α) :=
  fun a b =>
    match a, b with
    | .ok x, .ok y =>
      if h : x = y then isTrue (congrArg Except.ok h)
      else isFalse (fun hh => h (Except.ok.inj hh))
    | .error x, .error y =>
      if h : x = y then isTrue (congrArg Except.error h)
      else isFalse (fun hh => h (Except.error.inj hh))
    | .ok _, .error _ => isFalse (fun hh => Except.noConfusion hh)
    | .error _, .ok _ => isFalse (fun hh => Except.noConfusion hh)

namespace Crypto

/-- Reduction to a 32-bit word. -/
def w32 (n : Nat) : Nat := n % 4294967296

/-- 32-bit right rotation. -/
def rotr32 (n x : Nat) : Nat := w32 ((x >>> n) ||| (x <<< (32 - n)))

/-- SHA-256 message-schedule sigma-0. -/
def smallSigma0 (x : Nat) : Nat := (rotr32 7 x) ^^^ (rotr32 18 x) ^^^ (x >>> 3)

/-- SHA-256 message-schedule sigma-1. -/
def smallSigma1 (x : Nat) : Nat := (rotr32 17 x) ^^^ (rotr32 19 x) ^^^ (x >>> 10)

/-- SHA-256 compression Sigma-0. -/
def bigSigma0 (x : Nat) : Nat := (rotr32 2 x) ^^^ (rotr32 13 x) ^^^ (rotr32 22 x)

/-- SHA-256 compression Sigma-1. -/
def bigSigma1 (x : Nat) : Nat := (rotr32 6 x) ^^^ (rotr32 11 x) ^^^ (rotr32 25 x)

/-- SHA-256 choice function. -/
def chW (x y z : Nat) : Nat := (x &&& y) ^^^ ((x ^^^ 4294967295) &&& z)

/-- SHA-256 majority function. -/
def majW (x y z : Nat) : Nat := (x &&& y) ^^^ (x &&& z) ^^^ (y &&& z)

/-- The 64 SHA-256 round constants of FIPS 180-4 (fractional parts of the
cube roots of the first 64 primes), written in decimal. -/
def sha256K : List Nat :=
  [1116352408, 1899447441, 3049323471, 3921009573, 961987163, 1508970993,
   2453635748, 2870763221, 3624381080, 310598401, 607225278, 1426881987,
   1925078388, 2162078206, 2614888103, 3248222580, 3835390401, 4022224774,
   264347078, 604807628, 770255983, 1249150122, 1555081692, 1996064986,
   2554220882, 2821834349, 2952996808, 3210313671, 3336571891, 3584528711,
   113926993, 338241895, 666307205, 773529912, 1294757372, 1396182291,
   1695183700, 1986661051, 2177026350, 2456956037, 2730485921, 2820302411,
   3259730800, 3345764771, 3516065817, 3600352804, 4094571909, 275423344,
   430227734, 506948616, 659060556, 883997877, 958139571, 1322822218,
   1537002063, 1747873779, 1955562222, 2024104815, 2227730452, 2361852424,
   2428436474, 2756734187, 3204031479, 3329325298]

/-- The SHA-256 initial hash state (fractional parts of the square roots of
the first 8 primes), written in decimal. -/
def sha256Init : List Nat :=
  [1779033703, 3144134277, 1013904242, 2773480762,
   1359893119, 2600822924, 528734635, 1541459225]

/-- One message-schedule extension step over the sliding window of the last
16 schedule words (oldest first). -/
def scheduleStep (ws : List Nat) : Nat :=
  w32 (smallSigma1 (ws.getD 14 0) + ws.getD 9 0 + smallSigma0 (ws.getD 1 0) + ws.getD 0 0)

/-- Iterate the schedule extension, collecting the produced words. -/
def extendAux : Nat → List Nat → List Nat → List Nat
  | 0, _, acc => acc.reverse
  | n + 1, window, acc =>
    let nw := scheduleStep window
    extendAux n (window.tail ++ [nw]) (nw :: acc)

/-- The 64-word message schedule of one 16-word block. -/
def sha256Schedule (block : List Nat) : List Nat :=
  block ++ extendAux 48 block []

/-- One SHA-256 compression round on the 8-word working state. -/
def compressStep (hs : List Nat) (kw : Nat × Nat) : List Nat :=
  match hs with
  | [a, b, c, d, e, f, g, h] =>
    let t1 := w32 (h + bigSigma1 e + chW e f g + kw.1 + kw.2)
    let t2 := w32 (bigSigma0 a + majW a b c)
    [w32 (t1 + t2), a, b, c, w32 (d + t1), e, f, g]
  | other => other

/-- Process one 16-word block into the running hash state. -/
def processBlock (hs : List Nat) (block : List Nat) : List Nat :=
  let ws := sha256Schedule block
  let hs2 := (sha256K.zip ws).foldl compressStep hs
  (hs.zip hs2).map (fun p => w32 (p.1 + p.2))

/-- Big-endian byte decomposition (`n` bytes) of a natural number. -/
def beBytes : Nat → Nat → List Nat
  | 0, _ => []
  | n + 1, v => beBytes n (v / 256) ++ [v % 256]

/-- Group bytes into big-endian 32-bit words. -/
def bytesToWords : List Nat → List Nat
  | b0 :: b1 :: b2 :: b3 :: rest =>
    (((b0 * 256 + b1) * 256 + b2) * 256 + b3) :: bytesToWords rest
  | _ => []

/-- SHA-256 padding: `0x80`, zeros to 56 mod 64, then the 64-bit bit length. -/
def sha256Pad (msg : List Nat) : List Nat :=
  msg ++ [0x80] ++ List.replicate ((64 + 55 - msg.length % 64) % 64) 0
      ++ beBytes 8 (8 * msg.length)

/-- Fuel-driven chunking of a byte list into 64-byte blocks. -/
def chunks64 : Nat → List Nat → List (List Nat)
  | 0, _ => []
  | _, [] => []
  | fuel + 1, l => l.take 64 :: chunks64 fuel (l.drop 64)

/-- SHA-256 of a byte sequence (result is the 32-byte digest).  Checked
against the standard test vectors for the empty string, "abc" and the
two-block messages exercised through HMAC below. -/
def sha256 (msg : List Nat) : List Nat :=
  let padded := sha256Pad msg
  let blocks := (chunks64 padded.length padded).map bytesToWords
  ((blocks.foldl processBlock sha256Init).map (beBytes 4)).flatten

/-- HMAC-SHA256 (RFC 2104), the function computed by
`crypto.createHmac("sha256", key).update(msg).digest()`. -/
def hmacSha256 (key msg : List Nat) : List Nat :=
  let k0 := if key.length > 64 then sha256 key else key
  let kp := k0 ++ List.replicate (64 - k0.length) 0
  sha256 ((kp.map (fun b => b ^^^ 0x5c)) ++ sha256 ((kp.map (fun b => b ^^^ 0x36)) ++ msg))

/-- Lower-case hex character of a value below 16. -/
def hexDigit (n : Nat) : Char := if n < 10 then Char.ofNat (48 + n) else Char.ofNat (87 + n)

/-- Two hex characters of one byte. -/
def hexByte (b : Nat) : List Char := [hexDigit (b / 16), hexDigit (b % 16)]

/-- Lower-case hex encoding of a byte sequence (`.digest("hex")`). -/
def hexEncode (bs : List Nat) : List Char := (bs.map hexByte).flatten

/-- Modelled from the documented semantics of Node's
`crypto.timingSafeEqual`: the XOR of every byte pair is accumulated by OR
over the whole input, with no early exit, and the comparison succeeds exactly
when the accumulator stays zero.  (The primitive itself is native Node code,
not part of this repository; this is its standard constant-time algorithm.) -/
def tseAcc (a b : List Nat) : Nat :=
  (a.zip b).foldl (fun acc p => acc ||| (p.1 ^^^ p.2)) 0

/-- Result of `crypto.timingSafeEqual(a, b)` on two equal-length buffers. -/
def timingSafeEqual (a b : List Nat) : Bool := tseAcc a b == 0

/-- Cost model of `timingSafeEqual`: the number of byte pairs inspected,
which is always the full (common) length — never the position of the first
mismatch. -/
def tseSteps (a b : List Nat) : Nat := (a.zip b).length

/-- Cost model of the guarded signature comparison performed by `parseToken`:
one length check, plus the full byte loop exactly when the lengths agree
(when they differ, `timingSafeEqual` is never invoked thanks to the
short-circuit `||`). -/
def signatureCompareCost (a b : List Nat) : Nat :=
  if a.length = b.length then 1 + tseSteps a b else 1

end Crypto

namespace Token

/-- The failure taxonomy of the specification (section 7). -/
inductive FailureKind
  | MalformedToken
  | InvalidTier
  | InvalidTimestamp
  | Expired
  | InvalidSignature
deriving DecidableEq, Repr

/-- The six early-return branches of `parseToken`, one per `return` with
`valid: false` in the source. -/
inductive ParseFailure
  | tokenRequired
  | malformedToken
  | invalidTier
  | invalidTimestamp
  | expired
  | invalidSignature
deriving DecidableEq, Repr

/-- The `message` string of each failure branch, verbatim from the source. -/
def ParseFailure.message : ParseFailure → List Char
  | .tokenRequired => jstr "Token is required"
  | .malformedToken => jstr "Invalid token format"
  | .invalidTier => jstr "Invalid subscription tier"
  | .invalidTimestamp => jstr "Invalid token timestamp"
  | .expired => jstr "Token has expired"
  | .invalidSignature => jstr "Invalid token signature"

/-- Classification of the source's failure branches by the specification's
failure kinds: both the `!token` guard and the five-field/magic check are the
spec's structural check (`MalformedToken`). -/
def ParseFailure.kind : ParseFailure → FailureKind
  | .tokenRequired => .MalformedToken
  | .malformedToken => .MalformedToken
  | .invalidTier => .InvalidTier
  | .invalidTimestamp => .InvalidTimestamp
  | .expired => .Expired
  | .invalidSignature => .InvalidSignature

/-- Decoded claims (`TokenPayload` in the source). -/
structure TokenPayload where
  userId : List Char
  tier : List Char
  issuedAt : Int
  expiresAt : Int
deriving DecidableEq, Repr

/-- The closed tier enumeration (`validTiers` in `parseToken`). -/
def validTiers : List (List Char) := [jstr "premium", jstr "pro", jstr "enterprise"]

/-- The development-only fallback secret of the source. -/
def devFallbackSecret : List Char := jstr "dev-only-secret-do-not-use-in-prod"

/-- Embedding of `EFFECTIVE_SECRET = TOKEN_SECRET || (IS_PRODUCTION ? "" :
"dev-only-secret-do-not-use-in-prod")`; an unset environment variable and an
empty one are both falsy and are both modelled by `[]`. -/
def effectiveSecret (isProduction : Bool) (tokenSecret : List Char) : List Char :=
  if tokenSecret ≠ [] then tokenSecret
  else if isProduction then [] else devFallbackSecret

/-- The signed data `AFKMATE-${tier}-${timestampStr}-${userId}` (written in
right-nested form; list append is associative). -/
def dataToSign (tier ts uid : List Char) : List Char :=
  jstr "AFKMATE" ++ '-' :: (tier ++ '-' :: (ts ++ '-' :: uid))

/-- The wire token `AFKMATE-${tier}-${timestampStr}-${userId}-${signature}`. -/
def assembleToken (tier ts uid sig : List Char) : List Char :=
  jstr "AFKMATE" ++ '-' :: (tier ++ '-' :: (ts ++ '-' :: (uid ++ '-' :: sig)))

/-- First 12 hex characters of the HMAC-SHA256 of `data` under `secret`
(`crypto.createHmac("sha256", secret).update(data).digest("hex").substring(0, 12)`). -/
def truncatedSignature (secret data : List Char) : List Char :=
  (Crypto.hexEncode (Crypto.hmacSha256 (strUtf8 secret) (strUtf8 data))).take 12

/-- Embedding of `parseToken` from src/app/api/validate-token/route.ts
(lines 29-88; the copy in src/app/utils/prom.ts lines 554-613 is identical).
`secret` is the module's `EFFECTIVE_SECRET` and `now` the value of
`Date.now()` sampled at the expiry check. -/
def parseToken (secret : List Char) (now : Nat) (token : List Char) :
    Except ParseFailure TokenPayload :=
  if token = [] then .error .tokenRequired
  else
    let parts := splitDash token
    if parts.length ≠ 5 ∨ parts.getD 0 [] ≠ jstr "AFKMATE" then .error .malformedToken
    else
      let tier := parts.getD 1 []
      let timestampStr := parts.getD 2 []
      let userId := parts.getD 3 []
      let providedSignature := parts.getD 4 []
      if jsToLower tier ∉ validTiers then .error .invalidTier
      else
        match parseIntBase36 timestampStr with
        | none => .error .invalidTimestamp
        | some timestamp =>
          let expiresAt : Int := timestamp + 31536000000
          if (now : Int) > expiresAt then .error .expired
          else
            let expectedSignature := truncatedSignature secret (dataToSign tier timestampStr userId)
            let providedBuffer := strUtf8 providedSignature
            let expectedBuffer := strUtf8 expectedSignature
            if providedBuffer.length ≠ expectedBuffer.length ∨
                Crypto.timingSafeEqual providedBuffer expectedBuffer = false then
              .error .invalidSignature
            else
              .ok { userId := userId, tier := jsToLower tier,
                    issuedAt := timestamp, expiresAt := expiresAt }

/-- The error message thrown when generation is attempted without a secret. -/
def configErrorMessage : List Char :=
  jstr "Cannot generate tokens: AFKMATE_TOKEN_SECRET not configured"

/-- Embedding of `generateToken` (route.ts lines 93-108; prom.ts lines
618-633): `secret` is `EFFECTIVE_SECRET`, `now` the sampled `Date.now()`;
the thrown `Error` is modelled as `Except.error` of its message. -/
def generateToken (secret : List Char) (now : Nat) (userId tier : List Char) :
    Except (List Char) (List Char) :=
  if secret = [] then .error configErrorMessage
  else
    let timestampStr := natToBase36 now
    .ok (assembleToken tier timestampStr userId
          (truncatedSignature secret (dataToSign tier timestampStr userId)))

end Token

namespace RateLimit

/-- `RateLimitConfig` of the source. -/
structure RateLimitConfig where
  limit : Nat
  windowSec : Nat
deriving DecidableEq, Repr

/-- `RateLimitResult` of the source. -/
structure RateLimitResult where
  success : Bool
  limit : Nat
  remaining : Int
  resetIn : Int
deriving DecidableEq, Repr

/-- `RateLimitEntry` of the source (one in-memory counter). -/
structure RateLimitEntry where
  count : Nat
  resetTime : Int
deriving DecidableEq, Repr

/-- The in-memory store (`Map<string, RateLimitEntry>`), modelled as an
association list. -/
def Store : Type := List (List Char × RateLimitEntry)

/-- `store.get(key)`. -/
def mapGet (k : List Char) : Store → Option RateLimitEntry
  | [] => none
  | (k', v) :: rest => if k' = k then some v else mapGet k rest

/-- `store.set(key, entry)` (replace any binding of the key).  The source
increments `entry.count` through the object reference held by the map; the
net effect on the store is captured by setting the updated entry. -/
def mapSet (k : List Char) (v : RateLimitEntry) (s : Store) : Store :=
  (k, v) :: s.filter (fun p => decide (p.1 ≠ k))

/-- `Math.ceil(x / 1000)` on an exact integer `x`. -/
def jsCeilDiv1000 (x : Int) : Int := -((-x).fdiv 1000)

end RateLimit

namespace RateLimitRedis

open RateLimit

/-- The counter key `rate:${identifier}:${config.limit}:${config.windowSec}`
of `checkRateLimitInMemory` (prom.ts line 321). -/
def rlKey (identifier : List Char) (config : RateLimitConfig) : List Char :=
  jstr "rate:" ++ identifier ++ ':' :: (natToDec config.limit ++ ':' :: natToDec config.windowSec)

/-- Embedding of `checkRateLimitInMemory` (prom.ts lines 315-346), the
in-memory fallback of the Redis-capable module.  State passing is explicit:
the function returns the result together with the updated store. -/
def checkRateLimitInMemory (store : Store) (now : Int) (identifier : List Char)
    (config : RateLimitConfig) : RateLimitResult × Store :=
  let windowMs : Int := (config.windowSec : Int) * 1000
  let key := rlKey identifier config
  let entry : RateLimitEntry :=
    match mapGet key store with
    | some e => if now > e.resetTime then { count := 0, resetTime := now + windowMs } else e
    | none => { count := 0, resetTime := now + windowMs }
  let entry2 : RateLimitEntry := { entry with count := entry.count + 1 }
  ({ success := entry2.count ≤ config.limit,
     limit := config.limit,
     remaining := max 0 ((config.limit : Int) - (entry2.count : Int)),
     resetIn := jsCeilDiv1000 (entry2.resetTime - now) },
   mapSet key entry2 store)

/-- The fields of the object resolved by `limiter.limit(identifier)`. -/
structure RedisLimitResponse where
  success : Bool
  limit : Nat
  remaining : Int
  reset : Int
deriving DecidableEq, Repr

/-- Embedding of the Redis-capable `checkRateLimit` (prom.ts lines 351-377).
`limiterAvailable` models `getRateLimiter` returning a limiter (Redis
configured); `limitCall` models the awaited `limiter.limit` call, with
`Except.error` standing for a thrown/rejected call, consumed by the `catch`
that falls through to the in-memory path. -/
def checkRateLimit (limiterAvailable : Bool)
    (limitCall : Except (List Char) RedisLimitResponse)
    (store : Store) (now : Int) (identifier : List Char) (config : RateLimitConfig) :
    RateLimitResult × Store :=
  if limiterAvailable then
    match limitCall with
    | .ok r =>
      ({ success := r.success, limit := r.limit, remaining := r.remaining,
         resetIn := jsCeilDiv1000 (r.reset - now) }, store)
    | .error _ => checkRateLimitInMemory store now identifier config
  else
    checkRateLimitInMemory store now identifier config

end RateLimitRedis

namespace RateLimitLocal

open RateLimit

/-- The counter key `rate:${identifier}` of the standalone in-memory
`checkRateLimit` (prom.ts line 470) — it does not mention the policy. -/
def rlKey (identifier : List Char) : List Char := jstr "rate:" ++ identifier

/-- Embedding of the standalone synchronous `checkRateLimit` (prom.ts lines
464-495), the variant the route handlers call synchronously. -/
def checkRateLimit (store : Store) (now : Int) (identifier : List Char)
    (config : RateLimitConfig) : RateLimitResult × Store :=
  let windowMs : Int := (config.windowSec : Int) * 1000
  let key := rlKey identifier
  let entry : RateLimitEntry :=
    match mapGet key store with
    | some e => if now > e.resetTime then { count := 0, resetTime := now + windowMs } else e
    | none => { count := 0, resetTime := now + windowMs }
  let entry2 : RateLimitEntry := { entry with count := entry.count + 1 }
  ({ success := entry2.count ≤ config.limit,
     limit := config.limit,
     remaining := max 0 ((config.limit : Int) - (entry2.count : Int)),
     resetIn := jsCeilDiv1000 (entry2.resetTime - now) },
   mapSet key entry2 store)

/-- `RATE_LIMITS.validateToken`. -/
def rateLimitValidateToken : RateLimitConfig := { limit := 10, windowSec := 60 }

/-- `RATE_LIMITS.analyze`. -/
def rateLimitAnalyze : RateLimitConfig := { limit := 20, windowSec := 60 }

/-- `RATE_LIMITS.fix`. -/
def rateLimitFix : RateLimitConfig := { limit := 30, windowSec := 60 }

end RateLimitLocal

namespace Route

open RateLimit

/-- Embedding of `validateTokenFormat` (src/app/utils/validation.ts lines
222-241); `none` for the token argument models an absent or non-string
`token` field, and the result is `some errorMessage` or `none` for valid. -/
def validateTokenFormat (token : Option (List Char)) : Option (List Char) :=
  match token with
  | none => some (jstr "Token must be a non-empty string")
  | some t =>
    if t = [] then some (jstr "Token must be a non-empty string")
    else if jsLength t > 200 then some (jstr "Token too long")
    else if jsLength t < 20 then some (jstr "Token too short")
    else if t.take 8 ≠ jstr "AFKMATE-" then some (jstr "Invalid token format")
    else none

/-- The distinct responses of the `POST` handler of
src/app/api/validate-token/route.ts. -/
inductive PostResponse
  | rateLimited (resetIn : Int)
  | serviceUnavailable
  | invalidJson
  | formatRejected (msg : List Char)
  | tokenRejected (msg : List Char)
  | tokenAccepted (tier : List Char) (expiresAt : Int)
deriving DecidableEq, Repr

/-- HTTP status of each response, as set in the source. -/
def PostResponse.status : PostResponse → Nat
  | .rateLimited _ => 429
  | .serviceUnavailable => 503
  | .invalidJson => 400
  | .formatRejected _ => 400
  | .tokenRejected _ => 401
  | .tokenAccepted _ _ => 200

/-- Embedding of the `POST` handler (route.ts lines 110-183).  `rl` is the
result of the `checkRateLimit` call, `body` is `none` for unparseable JSON
and otherwise carries the optional `token` field, `now` is `Date.now()`. -/
def POST (isProduction : Bool) (tokenSecret : List Char) (rl : RateLimitResult)
    (body : Option (Option (List Char))) (now : Nat) : PostResponse :=
  if rl.success = false then .rateLimited rl.resetIn
  else if isProduction = true ∧ tokenSecret = [] then .serviceUnavailable
  else
    match body with
    | none => .invalidJson
    | some tokenField =>
      match validateTokenFormat tokenField with
      | some msg => .formatRejected msg
      | none =>
        match Token.parseToken (Token.effectiveSecret isProduction tokenSecret) now
            (tokenField.getD []) with
        | .error e => .tokenRejected e.message
        | .ok p => .tokenAccepted p.tier p.expiresAt

end Route

/-! ### List and string helper lemmas -/

/-- Splitting a dash-free string yields one segment. -/
theorem splitDash_of_no_dash (l : List Char) (h : '-' ∉ l) : splitDash l = [l] := by
  induction l with
  | nil => rfl
  | cons c cs ih =>
    simp only [List.mem_cons, not_or] at h
    simp only [splitDash]
    rw [if_neg (fun hc => h.1 hc.symm), ih h.2]

/-- Splitting peels off a dash-free segment before a separator. -/
theorem splitDash_append (xs ys : List Char) (h : '-' ∉ xs) :
    splitDash (xs ++ '-' :: ys) = xs :: splitDash ys := by
  induction xs with
  | nil => simp [splitDash]
  | cons c cs ih =>
    simp only [List.mem_cons, not_or] at h
    simp only [List.cons_append, splitDash, List.append_eq]
    rw [if_neg (fun hc => h.1 hc.symm), ih h.2]

/-- Splitting an assembled token recovers its five fields when no field
contains the delimiter. -/
theorem splitDash_assembleToken (tier ts uid sig : List Char)
    (h1 : '-' ∉ tier) (h2 : '-' ∉ ts) (h3 : '-' ∉ uid) (h4 : '-' ∉ sig) :
    splitDash (Token.assembleToken tier ts uid sig) = [jstr "AFKMATE", tier, ts, uid, sig] := by
  unfold Token.assembleToken
  rw [splitDash_append _ _ (by decide), splitDash_append _ _ h1, splitDash_append _ _ h2,
    splitDash_append _ _ h3, splitDash_of_no_dash _ h4]

/-- A `takeWhile` over a list satisfying the predicate keeps everything. -/
theorem takeWhile_all {p : Char → Bool} (l : List Char) (h : ∀ c ∈ l, p c = true) :
    l.takeWhile p = l := by
  induction l with
  | nil => rfl
  | cons c cs ih =>
    rw [List.takeWhile_cons_of_pos (h c (List.mem_cons_self c cs)),
      ih (fun x hx => h x (List.mem_cons_of_mem c hx))]

/-- A `dropWhile` over a list falsifying the predicate keeps everything. -/
theorem dropWhile_all_neg {p : Char → Bool} (l : List Char) (h : ∀ c ∈ l, p c = false) :
    l.dropWhile p = l := by
  cases l with
  | nil => rfl
  | cons c cs =>
    exact List.dropWhile_cons_of_neg (by simp [h c (List.mem_cons_self c cs)])

/-- Unique decomposition around a separator character absent from the left
parts. -/
theorem append_sep_inj (sep : Char) :
    ∀ (a₁ a₂ b₁ b₂ : List Char), sep ∉ a₁ → sep ∉ a₂ →
      a₁ ++ sep :: b₁ = a₂ ++ sep :: b₂ → a₁ = a₂ ∧ b₁ = b₂ := by
  intro a₁
  induction a₁ with
  | nil =>
    intro a₂ b₁ b₂ _ h2 heq
    cases a₂ with
    | nil => exact ⟨rfl, (List.cons.inj heq).2⟩
    | cons d ds =>
      exfalso
      have hd : sep = d := (List.cons.inj heq).1
      exact h2 (by rw [hd]; exact List.mem_cons_self d ds)
  | cons c cs ih =>
    intro a₂ b₁ b₂ h1 h2 heq
    cases a₂ with
    | nil =>
      exfalso
      have hd : c = sep := (List.cons.inj heq).1
      exact h1 (by rw [← hd]; exact List.mem_cons_self c cs)
    | cons d ds =>
      obtain ⟨hcd, htail⟩ := List.cons.inj heq
      simp only [List.mem_cons, not_or] at h1 h2
      obtain ⟨hcs, hb⟩ := ih ds b₁ b₂ h1.2 h2.2 htail
      exact ⟨by rw [hcd, hcs], hb⟩

/-! ### Constant-time comparison lemmas -/

/-- A bitwise OR of naturals vanishes exactly when both sides vanish. -/
theorem nat_or_eq_zero {a b : Nat} : a ||| b = 0 ↔ a = 0 ∧ b = 0 := by
  constructor
  · intro h
    refine ⟨Nat.zero_of_testBit_eq_false (fun i => ?_),
      Nat.zero_of_testBit_eq_false (fun i => ?_)⟩
    · have hh := congrArg (fun n => Nat.testBit n i) h
      simp [Nat.testBit_lor] at hh
      exact hh.1
    · have hh := congrArg (fun n => Nat.testBit n i) h
      simp [Nat.testBit_lor] at hh
      exact hh.2
  · rintro ⟨rfl, rfl⟩; rfl

/-- The OR-accumulating fold vanishes exactly when the accumulator is zero
and every pair agrees. -/
theorem foldl_lor_eq_zero (l : List (Nat × Nat)) :
    ∀ acc, (l.foldl (fun a p => a ||| (p.1 ^^^ p.2)) acc = 0) ↔
      (acc = 0 ∧ ∀ p ∈ l, p.1 = p.2) := by
  induction l with
  | nil => intro acc; simp
  | cons q t ih =>
    intro acc
    rw [List.foldl_cons, ih, nat_or_eq_zero, Nat.xor_eq_zero, List.forall_mem_cons]
    tauto

/-- Pointwise agreement of equal-length zipped lists is list equality. -/
theorem zip_pointwise_eq :
    ∀ (a b : List Nat), a.length = b.length → ((∀ p ∈ a.zip b, p.1 = p.2) ↔ a = b) := by
  intro a
  induction a with
  | nil =>
    intro b h
    cases b with
    | nil => simp
    | cons y ys => simp at h
  | cons x xs ih =>
    intro b h
    cases b with
    | nil => simp at h
    | cons y ys =>
      simp only [List.zip_cons_cons, List.forall_mem_cons, List.cons.injEq]
      rw [ih ys (by simpa using h)]

/-- `timingSafeEqual` on equal-length buffers decides exactly equality. -/
theorem timingSafeEqual_eq_true_iff {a b : List Nat} (h : a.length = b.length) :
    Crypto.timingSafeEqual a b = true ↔ a = b := by
  unfold Crypto.timingSafeEqual Crypto.tseAcc
  rw [beq_iff_eq, foldl_lor_eq_zero, zip_pointwise_eq a b h]
  simp

/-- `timingSafeEqual` accepts identical buffers. -/
theorem timingSafeEqual_refl (a : List Nat) : Crypto.timingSafeEqual a a = true :=
  (timingSafeEqual_eq_true_iff rfl).mpr rfl

/-! ### UTF-8 lemmas -/

/-- UTF-8 of an ASCII character is its single code point. -/
theorem utf8Char_ascii {c : Char} (h : c.toNat < 128) : utf8Char c = [c.toNat] := by
  unfold utf8Char
  rw [if_pos h]

/-- UTF-8 of an ASCII string is the list of code points. -/
theorem strUtf8_ascii {s : List Char} (h : ∀ c ∈ s, c.toNat < 128) :
    strUtf8 s = s.map Char.toNat := by
  induction s with
  | nil => rfl
  | cons c cs ih =>
    simp only [strUtf8, List.map_cons, List.flatten_cons] at *
    rw [utf8Char_ascii (h c (List.mem_cons_self c cs)),
      ih (fun x hx => h x (List.mem_cons_of_mem c hx))]
    rfl

/-- Code points determine characters. -/
theorem char_toNat_inj {c d : Char} (h : c.toNat = d.toNat) : c = d := by
  have hh := congrArg Char.ofNat h
  rwa [Char.ofNat_toNat, Char.ofNat_toNat] at hh

/-- UTF-8 encoding is injective on ASCII strings. -/
theorem strUtf8_inj_ascii {s t : List Char} (hs : ∀ c ∈ s, c.toNat < 128)
    (ht : ∀ c ∈ t, c.toNat < 128) (h : strUtf8 s = strUtf8 t) : s = t := by
  rw [strUtf8_ascii hs, strUtf8_ascii ht] at h
  exact List.map_injective_iff.mpr (fun a b hab => char_toNat_inj hab) h

/-! ### Digit-string lemmas -/

/-- Character-level facts about base-36 digits, checked by evaluation. -/
theorem digitChar_facts : ∀ d : Nat, d < 36 →
    digitChar d ≠ '-' ∧ digitChar d ≠ ':' ∧ digitChar d ≠ '+' ∧
    jsIsWhitespace (digitChar d) = false ∧ isDigit36 (digitChar d) = true ∧
    digitVal36 (digitChar d) = some d ∧ (digitChar d).toNat < 128 := by decide

/-- The fuel-driven digit loop agrees with `Nat.digits` (most-significant
digit first) for positive inputs and sufficient fuel. -/
theorem natToStrBaseAux_eq (b : Nat) (hb : 2 ≤ b) :
    ∀ (fuel n : Nat) (acc : List Char), 0 < n → n < fuel →
      natToStrBaseAux b fuel n acc = ((Nat.digits b n).reverse.map digitChar) ++ acc := by
  intro fuel
  induction fuel with
  | zero => intro n acc h1 h2; omega
  | succ f ih =>
    intro n acc hn hlt
    simp only [natToStrBaseAux]
    by_cases hnb : n < b
    · rw [if_pos hnb, Nat.digits_def' (by omega) hn, Nat.div_eq_of_lt hnb,
        Nat.mod_eq_of_lt hnb]
      simp
    · rw [if_neg hnb]
      have hdiv_pos : 0 < n / b := (Nat.one_le_div_iff (by omega)).mpr (by omega)
      have hdiv_lt : n / b < f := by
        have hself : n / b < n := Nat.div_lt_self hn (by omega)
        omega
      rw [ih (n / b) (digitChar (n % b) :: acc) hdiv_pos hdiv_lt,
        Nat.digits_def' (by omega) hn]
      simp

/-- `natToStrBase` for a positive number is its digit string. -/
theorem natToStrBase_eq (b n : Nat) (hb : 2 ≤ b) (hn : 0 < n) :
    natToStrBase b n = (Nat.digits b n).reverse.map digitChar := by
  rw [natToStrBase, natToStrBaseAux_eq b hb (n + 1) n [] hn (Nat.lt_succ_self n),
    List.append_nil]

/-- `natToStrBase` renders zero as the single digit `0`. -/
theorem natToStrBase_zero (b : Nat) (hb : 2 ≤ b) : natToStrBase b 0 = ['0'] := by
  rw [natToStrBase]
  simp only [natToStrBaseAux]
  rw [if_pos (by omega)]
  rfl

/-- Digit strings are never empty. -/
theorem natToStrBase_ne_nil (b n : Nat) (hb : 2 ≤ b) : natToStrBase b n ≠ [] := by
  rcases Nat.eq_zero_or_pos n with rfl | hn
  · rw [natToStrBase_zero b hb]; simp
  · rw [natToStrBase_eq b n hb hn]
    simp [Nat.digits_ne_nil_iff_ne_zero, Nat.pos_iff_ne_zero.mp hn]

/-- Every character of a digit string is a digit character. -/
theorem mem_natToStrBase {b n : Nat} {c : Char} (hb : 2 ≤ b) (hb36 : b ≤ 36)
    (hc : c ∈ natToStrBase b n) : ∃ d, d < 36 ∧ c = digitChar d := by
  rcases Nat.eq_zero_or_pos n with rfl | hn
  · rw [natToStrBase_zero b hb] at hc
    simp at hc
    exact ⟨0, by omega, by rw [hc]; decide⟩
  · rw [natToStrBase_eq b n hb hn] at hc
    obtain ⟨d, hd, rfl⟩ := List.mem_map.mp hc
    exact ⟨d, lt_of_lt_of_le (Nat.digits_lt_base (by omega) (List.mem_reverse.mp hd)) hb36, rfl⟩

/-- Value of the fold underlying `digitsValBase` over rendered digits. -/
theorem foldl_digitsVal (b : Nat) (hb : b ≤ 36) :
    ∀ (l : List Nat) (acc : Nat), (∀ d ∈ l, d < b) →
      List.foldl (fun a c => a * b + (digitVal36 c).getD 0) acc (l.map digitChar) =
        acc * b ^ l.length + Nat.ofDigits b l.reverse := by
  intro l
  induction l with
  | nil => intro acc h; simp [Nat.ofDigits]
  | cons d t ih =>
    intro acc h
    simp only [List.map_cons, List.foldl_cons]
    rw [(digitChar_facts d (lt_of_lt_of_le (h d (List.mem_cons_self d t)) hb)).2.2.2.2.2.1,
      Option.getD_some, ih (acc * b + d) (fun x hx => h x (List.mem_cons_of_mem d hx)),
      List.reverse_cons, Nat.ofDigits_append]
    simp [Nat.ofDigits_singleton]
    ring

/-- Evaluating a rendered digit string recovers the number. -/
theorem digitsValBase_natToStrBase (b n : Nat) (hb : 2 ≤ b) (hb36 : b ≤ 36) :
    digitsValBase b (natToStrBase b n) = n := by
  rcases Nat.eq_zero_or_pos n with rfl | hn
  · have h0 : digitVal36 '0' = some 0 := by decide
    rw [natToStrBase_zero b hb]
    simp [digitsValBase, h0]
  · rw [natToStrBase_eq b n hb hn, digitsValBase,
      foldl_digitsVal b hb36 _ 0
        (fun d hd => Nat.digits_lt_base (by omega) (List.mem_reverse.mp hd)),
      List.reverse_reverse, Nat.ofDigits_digits]
    simp

/-- Rendering in a base between 2 and 36 is injective. -/
theorem natToStrBase_inj {b n m : Nat} (hb : 2 ≤ b) (hb36 : b ≤ 36)
    (h : natToStrBase b n = natToStrBase b m) : n = m := by
  have hh := congrArg (digitsValBase b) h
  rwa [digitsValBase_natToStrBase b n hb hb36, digitsValBase_natToStrBase b m hb hb36] at hh

/-- `parseInt(_, 36)` inverts `toString(36)` on non-negative integers. -/
theorem parseIntBase36_natToBase36 (n : Nat) : parseIntBase36 (natToBase36 n) = some (n : Int) := by
  have hmem : ∀ c ∈ natToBase36 n, ∃ d, d < 36 ∧ c = digitChar d :=
    fun c hc => mem_natToStrBase (by omega) (by omega) hc
  have hdrop : (natToBase36 n).dropWhile jsIsWhitespace = natToBase36 n := by
    refine dropWhile_all_neg _ (fun c hc => ?_)
    obtain ⟨d, hd, rfl⟩ := hmem c hc
    exact (digitChar_facts d hd).2.2.2.1
  have htake : (natToBase36 n).takeWhile isDigit36 = natToBase36 n := by
    refine takeWhile_all _ (fun c hc => ?_)
    obtain ⟨d, hd, rfl⟩ := hmem c hc
    exact (digitChar_facts d hd).2.2.2.2.1
  have hne : natToBase36 n ≠ [] := natToStrBase_ne_nil 36 n (by omega)
  have hhead : ((natToBase36 n).headD ' ') ∈ natToBase36 n := by
    cases hs : natToBase36 n with
    | nil => exact absurd hs hne
    | cons c rest => simp
  obtain ⟨d, hd, hcd⟩ := hmem _ hhead
  have hfacts := digitChar_facts d hd
  simp only [parseIntBase36, hdrop]
  rw [if_neg (by rw [hcd]; exact hfacts.1), if_neg (by rw [hcd]; exact hfacts.2.2.1)]
  simp only [parseBase36Digits, htake]
  rw [if_neg hne]
  simp only [natToBase36]
  rw [digitsValBase_natToStrBase 36 n (by omega) (by omega)]
  rfl

/-! ### Store lemmas -/

namespace RateLimit

/-- Reading back the key just set. -/
theorem mapGet_mapSet_self (k : List Char) (v : RateLimitEntry) (s : Store) :
    mapGet k (mapSet k v s) = some v := by
  simp [mapSet, mapGet]

/-- Filtering out a key leaves lookups of other keys unchanged. -/
theorem mapGet_filter_ne (k k' : List Char) (h : k' ≠ k) :
    ∀ s : Store, mapGet k' (s.filter (fun p => decide (p.1 ≠ k))) = mapGet k' s := by
  intro s
  induction s with
  | nil => rfl
  | cons a t ih =>
    simp only [ne_eq, decide_not] at ih
    by_cases hak : a.1 = k
    · have h2 : ¬ a.1 = k' := by rw [hak]; exact fun hh => h hh.symm
      simp [List.filter_cons, hak, ih, mapGet, h2, Ne.symm h]
    · simp [List.filter_cons, hak, ih, mapGet]

/-- Setting one key leaves lookups of other keys unchanged. -/
theorem mapGet_mapSet_ne (k k' : List Char) (v : RateLimitEntry) (s : Store) (h : k' ≠ k) :
    mapGet k' (mapSet k v s) = mapGet k' s := by
  rw [mapSet, mapGet, if_neg (fun hh => h hh.symm)]
  exact mapGet_filter_ne k k' h s

end RateLimit

/-! ### Crypto byte lemmas -/

/-- Big-endian byte decompositions produce bytes. -/
theorem beBytes_lt : ∀ (n v : Nat), ∀ x ∈ Crypto.beBytes n v, x < 256 := by
  intro n
  induction n with
  | zero => intro v x hx; simp [Crypto.beBytes] at hx
  | succ m ih =>
    intro v x hx
    simp only [Crypto.beBytes, List.mem_append, List.mem_singleton] at hx
    rcases hx with hx | rfl
    · exact ih _ x hx
    · exact Nat.mod_lt _ (by omega)

/-- SHA-256 digests are byte sequences. -/
theorem sha256_bytes_lt (msg : List Nat) : ∀ x ∈ Crypto.sha256 msg, x < 256 := by
  intro x hx
  simp only [Crypto.sha256, List.mem_flatten, List.mem_map] at hx
  obtain ⟨l, ⟨w, _, rfl⟩, hxl⟩ := hx
  exact beBytes_lt 4 w x hxl

/-- HMAC-SHA256 digests are byte sequences. -/
theorem hmacSha256_bytes_lt (k m : List Nat) : ∀ x ∈ Crypto.hmacSha256 k m, x < 256 := by
  intro x hx
  simp only [Crypto.hmacSha256] at hx
  exact sha256_bytes_lt _ x hx

/-- Hex digits of values below 16 are neither dashes nor non-ASCII. -/
theorem hexDigit_facts : ∀ m : Nat, m < 16 →
    Crypto.hexDigit m ≠ '-' ∧ (Crypto.hexDigit m).toNat < 128 := by decide

/-- Characters of a hex encoding of bytes are ASCII and dash-free. -/
theorem mem_hexEncode {bs : List Nat} {c : Char} (hb : ∀ b ∈ bs, b < 256)
    (hc : c ∈ Crypto.hexEncode bs) : c ≠ '-' ∧ c.toNat < 128 := by
  simp only [Crypto.hexEncode, List.mem_flatten, List.mem_map] at hc
  obtain ⟨l, ⟨b, hbm, rfl⟩, hcl⟩ := hc
  have hb256 := hb b hbm
  simp only [Crypto.hexByte, List.mem_cons, List.mem_singleton, List.not_mem_nil,
    or_false] at hcl
  rcases hcl with rfl | rfl
  · exact hexDigit_facts _ (by omega)
  · exact hexDigit_facts _ (Nat.mod_lt _ (by omega))

/-- Characters of a truncated token signature are ASCII and dash-free. -/
theorem truncatedSignature_chars {secret data : List Char} {c : Char}
    (hc : c ∈ Token.truncatedSignature secret data) : c ≠ '-' ∧ c.toNat < 128 := by
  unfold Token.truncatedSignature at hc
  exact mem_hexEncode (fun b hb => hmacSha256_bytes_lt _ _ b hb) (List.mem_of_mem_take hc)

/-- The truncated signature contains no delimiter. -/
theorem truncatedSignature_no_dash (secret data : List Char) :
    '-' ∉ Token.truncatedSignature secret data :=
  fun hc => (truncatedSignature_chars hc).1 rfl

/-- Members of the tier enumeration are dash-free and lower-case. -/
theorem validTiers_facts : ∀ t ∈ Token.validTiers, ('-' ∉ t) ∧ jsToLower t = t := by decide

/-- The base-36 rendering of a timestamp contains no delimiter. -/
theorem natToBase36_no_dash (n : Nat) : '-' ∉ natToBase36 n := by
  intro hc
  rw [natToBase36] at hc
  obtain ⟨d, hd, hcd⟩ := mem_natToStrBase (by omega) (by omega) hc
  exact (digitChar_facts d hd).1 hcd.symm

/-- The decimal rendering of a number contains no colon. -/
theorem natToDec_no_colon (n : Nat) : ':' ∉ natToDec n := by
  intro hc
  rw [natToDec] at hc
  obtain ⟨d, hd, hcd⟩ := mem_natToStrBase (by omega) (by omega) hc
  exact (digitChar_facts d hd).2.1 hcd.symm

/-- The guarded comparison of `parseToken` fails exactly on byte
inequality. -/
theorem sig_mismatch_iff {pb eb : List Nat} :
    (pb.length ≠ eb.length ∨ Crypto.timingSafeEqual pb eb = false) ↔ pb ≠ eb := by
  by_cases hl : pb.length = eb.length
  · constructor
    · rintro (hc | hc)
      · exact absurd hl hc
      · intro heq
        rw [heq, timingSafeEqual_refl] at hc
        cases hc
    · intro hne
      right
      cases htse : Crypto.timingSafeEqual pb eb
      · rfl
      · exact absurd ((timingSafeEqual_eq_true_iff hl).mp htse) hne
  · constructor
    · intro _ heq
      exact hl (by rw [heq])
    · intro _
      exact Or.inl hl

/-- The cost of the guarded comparison depends only on the two lengths. -/
theorem signatureCompareCost_only_lengths (pb eb pb' eb' : List Nat)
    (hp : pb.length = pb'.length) (he : eb.length = eb'.length) :
    Crypto.signatureCompareCost pb eb = Crypto.signatureCompareCost pb' eb' := by
  simp only [Crypto.signatureCompareCost, Crypto.tseSteps, List.length_zip, hp, he]

/-- A list of length five has five elements. -/
theorem list_len5 {α : Type} {l : List α} (h : l.length = 5) :
    ∃ a b c d e, l = [a, b, c, d, e] := by
  rcases l with _ | ⟨a, _ | ⟨b, _ | ⟨c, _ | ⟨d, _ | ⟨e, rest⟩⟩⟩⟩⟩ <;> simp at h
  rcases rest with _ | ⟨f, rest⟩
  · exact ⟨a, b, c, d, e, rfl⟩
  · simp at h

/-- Evaluation of `parseToken` on an assembled five-field token: the
structural stage always passes and the remaining checks run on the given
fields. -/
theorem parseToken_assembled (secret : List Char) (now : Nat) (tier ts uid sig : List Char)
    (h1 : '-' ∉ tier) (h2 : '-' ∉ ts) (h3 : '-' ∉ uid) (h4 : '-' ∉ sig) :
    Token.parseToken secret now (Token.assembleToken tier ts uid sig) =
      (if jsToLower tier ∉ Token.validTiers then .error .invalidTier
       else
         match parseIntBase36 ts with
         | none => .error .invalidTimestamp
         | some timestamp =>
           if (now : Int) > timestamp + 31536000000 then .error .expired
           else
             if (strUtf8 sig).length ≠
                 (strUtf8 (Token.truncatedSignature secret (Token.dataToSign tier ts uid))).length ∨
                 Crypto.timingSafeEqual (strUtf8 sig)
                   (strUtf8 (Token.truncatedSignature secret (Token.dataToSign tier ts uid))) = false
             then .error .invalidSignature
             else .ok { userId := uid, tier := jsToLower tier, issuedAt := timestamp,
                        expiresAt := timestamp + 31536000000 }) := by
  have hA : jstr "AFKMATE" = ['A', 'F', 'K', 'M', 'A', 'T', 'E'] := rfl
  have hne : Token.assembleToken tier ts uid sig ≠ [] := by
    rw [Token.assembleToken, hA]
    simp
  have hsplit := splitDash_assembleToken tier ts uid sig h1 h2 h3 h4
  simp only [Token.parseToken]
  rw [if_neg hne, hsplit]
  norm_num [List.getD]

/-- The failure kind of a parse outcome, `none` on success. -/
def parseKind (r : Except Token.ParseFailure Token.TokenPayload) : Option Token.FailureKind :=
  match r with
  | .error e => some e.kind
  | .ok _ => none

/-- Evaluation of `parseToken` on any token whose split yields five fields
headed by the magic literal. -/
theorem parseToken_five_fields (secret : List Char) (now : Nat) (token : List Char)
    (p0 p1 p2 p3 p4 : List Char) (hsplit : splitDash token = [p0, p1, p2, p3, p4])
    (hmagic : p0 = jstr "AFKMATE") :
    Token.parseToken secret now token =
      (if jsToLower p1 ∉ Token.validTiers then .error .invalidTier
       else
         match parseIntBase36 p2 with
         | none => .error .invalidTimestamp
         | some timestamp =>
           if (now : Int) > timestamp + 31536000000 then .error .expired
           else
             if (strUtf8 p4).length ≠
                 (strUtf8 (Token.truncatedSignature secret (Token.dataToSign p1 p2 p3))).length ∨
                 Crypto.timingSafeEqual (strUtf8 p4)
                   (strUtf8 (Token.truncatedSignature secret (Token.dataToSign p1 p2 p3))) = false
             then .error .invalidSignature
             else .ok { userId := p3, tier := jsToLower p1, issuedAt := timestamp,
                        expiresAt := timestamp + 31536000000 }) := by
  have htok : token ≠ [] := by
    intro h
    rw [h] at hsplit
    simp [splitDash] at hsplit
  simp only [Token.parseToken]
  rw [if_neg htok, hsplit]
  norm_num [List.getD, hmagic]

/-! ### Claim theorems -/

/-- The four-call sequence of the specification's local-backend test:
same client, policy limit 3 / window 60 s, all calls within the window. -/
def fourCallSequence : List RateLimit.RateLimitResult :=
  let cfg : RateLimit.RateLimitConfig := { limit := 3, windowSec := 60 }
  let r1 := RateLimitLocal.checkRateLimit [] 0 (jstr "client") cfg
  let r2 := RateLimitLocal.checkRateLimit r1.2 1000 (jstr "client") cfg
  let r3 := RateLimitLocal.checkRateLimit r2.2 2000 (jstr "client") cfg
  let r4 := RateLimitLocal.checkRateLimit r3.2 3000 (jstr "client") cfg
  [r1.1, r2.1, r3.1, r4.1]

/-- C5: under the local in-memory backend with limit 3 / window 60 s, four
consecutive admissions of one client yield allowed true, true, true, false
with remaining 2, 1, 0, 0; in general, a call on a live window increments
the stored count, reports success exactly when the new count is within the
limit (so the limit-th call is allowed and the (limit+1)-th denied), floors
remaining at 0, and leaves the window's reset instant unchanged even on
denial. -/
theorem local_window_counting :
    (fourCallSequence.map (fun r => (r.success, r.remaining)) =
      [(true, 2), (true, 1), (true, 0), (false, 0)])
    ∧ (∀ (store : RateLimit.Store) (now : Int) (id : List Char)
        (cfg : RateLimit.RateLimitConfig) (e : RateLimit.RateLimitEntry),
        RateLimit.mapGet (RateLimitLocal.rlKey id) store = some e → ¬ now > e.resetTime →
          (RateLimitLocal.checkRateLimit store now id cfg).1.success
              = decide (e.count + 1 ≤ cfg.limit)
            ∧ (e.count + 1 = cfg.limit →
                (RateLimitLocal.checkRateLimit store now id cfg).1.success = true)
            ∧ (e.count = cfg.limit →
                (RateLimitLocal.checkRateLimit store now id cfg).1.success = false)
            ∧ (RateLimitLocal.checkRateLimit store now id cfg).1.remaining
                = max 0 ((cfg.limit : Int) - ((e.count : Int) + 1))
            ∧ RateLimit.mapGet (RateLimitLocal.rlKey id)
                  (RateLimitLocal.checkRateLimit store now id cfg).2
                = some { count := e.count + 1, resetTime := e.resetTime }) := by
  constructor
  · decide
  · intro store now id cfg e hget hnow
    simp only [RateLimitLocal.checkRateLimit, hget, if_neg hnow]
    refine ⟨trivial, ?_, ?_, ?_, RateLimit.mapGet_mapSet_self _ _ _⟩
    · intro hcount
      simp [hcount]
    · intro hcount
      simp only [decide_eq_false_iff_not]
      omega
    · push_cast
      rfl

/-- Witness for C5: the general clause applied to a live counter of count 2
under limit 3 (the limit-th call: allowed with remaining 0). -/
theorem local_window_counting_witness :
    (RateLimitLocal.checkRateLimit
        [(RateLimitLocal.rlKey (jstr "client"), { count := 2, resetTime := 60000 })]
        10 (jstr "client") { limit := 3, windowSec := 60 }).1.success = true ∧
    (RateLimitLocal.checkRateLimit
        [(RateLimitLocal.rlKey (jstr "client"), { count := 2, resetTime := 60000 })]
        10 (jstr "client") { limit := 3, windowSec := 60 }).1.remaining
      = max 0 ((3 : Int) - ((2 : Int) + 1)) := by
  have h := local_window_counting.2
    [(RateLimitLocal.rlKey (jstr "client"), { count := 2, resetTime := 60000 })]
    10 (jstr "client") { limit := 3, windowSec := 60 } { count := 2, resetTime := 60000 }
    (by decide) (by decide)
  exact ⟨h.2.1 (by decide), h.2.2.2.1⟩

/-- C6 counterexample: the standalone local limiter keys counters by the
client identifier alone, so the same client under two different policies
shares one counter: after a first call under limit 3 / window 60 s, a second
call under limit 5 / window 120 s reads the same counter (count 2, the
original reset instant) and reports remaining 3 instead of a fresh 4. -/
theorem counter_key_separation_cex :
    RateLimitLocal.rlKey (jstr "a") = jstr "rate:a"
    ∧ ({ limit := 3, windowSec := 60 } : RateLimit.RateLimitConfig)
        ≠ { limit := 5, windowSec := 120 }
    ∧ (RateLimitLocal.checkRateLimit
        (RateLimitLocal.checkRateLimit [] 0 (jstr "a") { limit := 3, windowSec := 60 }).2
        0 (jstr "a") { limit := 5, windowSec := 120 }).1.remaining = 3
    ∧ RateLimit.mapGet (RateLimitLocal.rlKey (jstr "a"))
        (RateLimitLocal.checkRateLimit
          (RateLimitLocal.checkRateLimit [] 0 (jstr "a") { limit := 3, windowSec := 60 }).2
          0 (jstr "a") { limit := 5, windowSec := 120 }).2
      = some { count := 2, resetTime := 60000 } := by decide

/-- C6 (amended): in the Redis-capable module's in-memory fallback, counter
keys carry the triple (clientId, limit, windowSeconds), distinct clients
never collide under one policy, distinct policies never collide for one
client, and a call reads and writes only its own key; the standalone local
limiter keys by clientId alone, which still separates distinct clients but
(contrary to the claim) makes different policies on the same client share a
counter. -/
theorem counter_key_separation :
    (∀ (id₁ id₂ : List Char) (cfg : RateLimit.RateLimitConfig), id₁ ≠ id₂ →
        RateLimitRedis.rlKey id₁ cfg ≠ RateLimitRedis.rlKey id₂ cfg)
    ∧ (∀ (id : List Char) (cfg₁ cfg₂ : RateLimit.RateLimitConfig), cfg₁ ≠ cfg₂ →
        RateLimitRedis.rlKey id cfg₁ ≠ RateLimitRedis.rlKey id cfg₂)
    ∧ (∀ id₁ id₂ : List Char, id₁ ≠ id₂ →
        RateLimitLocal.rlKey id₁ ≠ RateLimitLocal.rlKey id₂)
    ∧ (∀ (store : RateLimit.Store) (now : Int) (id : List Char)
        (cfg : RateLimit.RateLimitConfig) (k' : List Char),
        k' ≠ RateLimitRedis.rlKey id cfg →
        RateLimit.mapGet k' (RateLimitRedis.checkRateLimitInMemory store now id cfg).2 =
          RateLimit.mapGet k' store)
    ∧ (∀ (store : RateLimit.Store) (now : Int) (id : List Char)
        (cfg : RateLimit.RateLimitConfig) (k' : List Char),
        k' ≠ RateLimitLocal.rlKey id →
        RateLimit.mapGet k' (RateLimitLocal.checkRateLimit store now id cfg).2 =
          RateLimit.mapGet k' store)
    ∧ (∀ (s₁ s₂ : RateLimit.Store) (now : Int) (id : List Char)
        (cfg : RateLimit.RateLimitConfig),
        RateLimit.mapGet (RateLimitRedis.rlKey id cfg) s₁ =
          RateLimit.mapGet (RateLimitRedis.rlKey id cfg) s₂ →
        (RateLimitRedis.checkRateLimitInMemory s₁ now id cfg).1 =
          (RateLimitRedis.checkRateLimitInMemory s₂ now id cfg).1) := by
  refine ⟨?_, ?_, ?_, ?_, ?_, ?_⟩
  · intro id₁ id₂ cfg hne heq
    rw [RateLimitRedis.rlKey, RateLimitRedis.rlKey] at heq
    exact hne (List.append_cancel_left (List.append_cancel_right heq))
  · intro id cfg₁ cfg₂ hne heq
    rw [RateLimitRedis.rlKey, RateLimitRedis.rlKey] at heq
    have h1 := List.append_cancel_left heq
    have h2 := (List.cons.inj h1).2
    obtain ⟨hl, hw⟩ := append_sep_inj ':' _ _ _ _
      (natToDec_no_colon cfg₁.limit) (natToDec_no_colon cfg₂.limit) h2
    obtain ⟨l₁, w₁⟩ := cfg₁
    obtain ⟨l₂, w₂⟩ := cfg₂
    simp only [natToDec] at hl hw
    have hl' : l₁ = l₂ := natToStrBase_inj (by omega) (by omega) hl
    have hw' : w₁ = w₂ := natToStrBase_inj (by omega) (by omega) hw
    exact hne (by rw [hl', hw'])
  · intro id₁ id₂ hne heq
    rw [RateLimitLocal.rlKey, RateLimitLocal.rlKey] at heq
    exact hne (List.append_cancel_left heq)
  · intro store now id cfg k' hk
    simp only [RateLimitRedis.checkRateLimitInMemory]
    exact RateLimit.mapGet_mapSet_ne _ _ _ _ hk
  · intro store now id cfg k' hk
    simp only [RateLimitLocal.checkRateLimit]
    exact RateLimit.mapGet_mapSet_ne _ _ _ _ hk
  · intro s₁ s₂ now id cfg hsame
    simp only [RateLimitRedis.checkRateLimitInMemory, hsame]

/-- Witness for C6: key separation at concrete inputs — distinct clients
under one policy, and distinct policies for one client, map to distinct
triple keys. -/
theorem counter_key_separation_witness :
    RateLimitRedis.rlKey (jstr "a") { limit := 3, windowSec := 60 }
        ≠ RateLimitRedis.rlKey (jstr "b") { limit := 3, windowSec := 60 }
    ∧ RateLimitRedis.rlKey (jstr "a") { limit := 3, windowSec := 60 }
        ≠ RateLimitRedis.rlKey (jstr "a") { limit := 5, windowSec := 60 } :=
  ⟨counter_key_separation.1 (jstr "a") (jstr "b") _ (by decide),
   counter_key_separation.2.1 (jstr "a") _ _ (by decide)⟩

/-- C7: when the distributed limiter is configured but its `limit` call
throws, `checkRateLimit` returns exactly the local in-memory admission
result for that request (the failure never escapes), and that result is a
well-formed admission: the advertised limit is the policy limit and
remaining lies between 0 and the limit. -/
theorem redis_failure_falls_back (err : List Char) (store : RateLimit.Store) (now : Int)
    (id : List Char) (cfg : RateLimit.RateLimitConfig) :
    RateLimitRedis.checkRateLimit true (Except.error err) store now id cfg =
      RateLimitRedis.checkRateLimitInMemory store now id cfg
    ∧ (RateLimitRedis.checkRateLimitInMemory store now id cfg).1.limit = cfg.limit
    ∧ 0 ≤ (RateLimitRedis.checkRateLimitInMemory store now id cfg).1.remaining
    ∧ (RateLimitRedis.checkRateLimitInMemory store now id cfg).1.remaining
        ≤ (cfg.limit : Int) := by
  refine ⟨by simp [RateLimitRedis.checkRateLimit], ?_, ?_, ?_⟩
  · simp [RateLimitRedis.checkRateLimitInMemory]
  · simp only [RateLimitRedis.checkRateLimitInMemory]
    exact le_max_left _ _
  · simp only [RateLimitRedis.checkRateLimitInMemory]
    refine max_le (Int.ofNat_nonneg _) ?_
    omega

/-- C8: once a window has elapsed (`now` strictly past the stored reset
instant) or no counter exists, the next admission under either in-memory
variant creates a fresh counter: it is allowed, remaining is limit - 1, and
the stored counter restarts at count 1 with a new reset instant — no matter
how large the expired count was. -/
theorem expired_window_reset :
    (∀ (store : RateLimit.Store) (now : Int) (id : List Char)
        (cfg : RateLimit.RateLimitConfig), 1 ≤ cfg.limit →
        (RateLimit.mapGet (RateLimitLocal.rlKey id) store = none ∨
          ∃ e, RateLimit.mapGet (RateLimitLocal.rlKey id) store = some e ∧ now > e.resetTime) →
          (RateLimitLocal.checkRateLimit store now id cfg).1.success = true
          ∧ (RateLimitLocal.checkRateLimit store now id cfg).1.remaining = (cfg.limit : Int) - 1
          ∧ RateLimit.mapGet (RateLimitLocal.rlKey id)
                (RateLimitLocal.checkRateLimit store now id cfg).2
              = some { count := 1, resetTime := now + (cfg.windowSec : Int) * 1000 })
    ∧ (∀ (store : RateLimit.Store) (now : Int) (id : List Char)
        (cfg : RateLimit.RateLimitConfig), 1 ≤ cfg.limit →
        (RateLimit.mapGet (RateLimitRedis.rlKey id cfg) store = none ∨
          ∃ e, RateLimit.mapGet (RateLimitRedis.rlKey id cfg) store = some e ∧
            now > e.resetTime) →
          (RateLimitRedis.checkRateLimitInMemory store now id cfg).1.success = true
          ∧ (RateLimitRedis.checkRateLimitInMemory store now id cfg).1.remaining
              = (cfg.limit : Int) - 1
          ∧ RateLimit.mapGet (RateLimitRedis.rlKey id cfg)
                (RateLimitRedis.checkRateLimitInMemory store now id cfg).2
              = some { count := 1, resetTime := now + (cfg.windowSec : Int) * 1000 }) := by
  constructor
  · intro store now id cfg hlim habs
    rcases habs with hget | ⟨e, hget, hexp⟩
    · simp only [RateLimitLocal.checkRateLimit, hget]
      refine ⟨by simp [hlim], ?_, RateLimit.mapGet_mapSet_self _ _ _⟩
      rw [max_eq_right (by omega)]
      push_cast
      ring
    · simp only [RateLimitLocal.checkRateLimit, hget, if_pos hexp]
      refine ⟨by simp [hlim], ?_, RateLimit.mapGet_mapSet_self _ _ _⟩
      rw [max_eq_right (by omega)]
      push_cast
      ring
  · intro store now id cfg hlim habs
    rcases habs with hget | ⟨e, hget, hexp⟩
    · simp only [RateLimitRedis.checkRateLimitInMemory, hget]
      refine ⟨by simp [hlim], ?_, RateLimit.mapGet_mapSet_self _ _ _⟩
      rw [max_eq_right (by omega)]
      push_cast
      ring
    · simp only [RateLimitRedis.checkRateLimitInMemory, hget, if_pos hexp]
      refine ⟨by simp [hlim], ?_, RateLimit.mapGet_mapSet_self _ _ _⟩
      rw [max_eq_right (by omega)]
      push_cast
      ring

/-- Witness for C8: after a window expires (count 7 at reset instant 60000,
clock at 60001), the next call is allowed with remaining 2 under limit 3. -/
theorem expired_window_reset_witness :
    (RateLimitLocal.checkRateLimit
        [(RateLimitLocal.rlKey (jstr "c"), { count := 7, resetTime := 60000 })]
        60001 (jstr "c") { limit := 3, windowSec := 60 }).1.success = true
    ∧ (RateLimitLocal.checkRateLimit
        [(RateLimitLocal.rlKey (jstr "c"), { count := 7, resetTime := 60000 })]
        60001 (jstr "c") { limit := 3, windowSec := 60 }).1.remaining = (3 : Int) - 1 := by
  have h := expired_window_reset.1
    [(RateLimitLocal.rlKey (jstr "c"), { count := 7, resetTime := 60000 })]
    60001 (jstr "c") { limit := 3, windowSec := 60 } (by decide)
    (Or.inr ⟨{ count := 7, resetTime := 60000 }, by decide, by decide⟩)
  exact ⟨h.1, h.2.1⟩

/-- C4 counterexample: in production with the secret unset, a request that
exceeds the rate limit is answered 429 — a 4xx — not 503, because the rate
limiter runs before the configuration check. -/
theorem prod_missing_secret_fails_closed_cex :
    (Route.POST true [] { success := false, limit := 10, remaining := 0, resetIn := 42 }
        (some (some (jstr "AFKMATE-premium-0-user123-abcdefabcdef"))) 0).status = 429
    ∧ (Route.POST true [] { success := false, limit := 10, remaining := 0, resetIn := 42 }
        (some (some (jstr "AFKMATE-premium-0-user123-abcdefabcdef"))) 0).status ≠ 503 := by
  decide

/-- C4 (amended): in production with the signing secret unset, every request
admitted by the rate limiter — whatever its body — is answered with the 503
service-unavailable response, so no token is ever parsed; the effective
secret is empty then, not the development fallback (requests denied by the
rate limiter are answered 429 first). -/
theorem prod_missing_secret_fails_closed (rl : RateLimit.RateLimitResult)
    (body : Option (Option (List Char))) (now : Nat) (hrl : rl.success = true) :
    Route.POST true [] rl body now = Route.PostResponse.serviceUnavailable
    ∧ (Route.POST true [] rl body now).status = 503
    ∧ Token.effectiveSecret true [] = []
    ∧ Token.effectiveSecret true [] ≠ Token.devFallbackSecret := by
  have hpost : Route.POST true [] rl body now = Route.PostResponse.serviceUnavailable := by
    simp only [Route.POST]
    rw [if_neg (by rw [hrl]; simp), if_pos (by simp)]
  exact ⟨hpost, by rw [hpost]; rfl, rfl, by decide⟩

/-- Witness for C4: the amended statement at a concrete admitted request. -/
theorem prod_missing_secret_fails_closed_witness :
    Route.POST true [] { success := true, limit := 10, remaining := 5, resetIn := 42 }
        (some (some (jstr "AFKMATE-premium-0-user123-abcdefabcdef"))) 0
      = Route.PostResponse.serviceUnavailable :=
  (prod_missing_secret_fails_closed { success := true, limit := 10, remaining := 5, resetIn := 42 }
    (some (some (jstr "AFKMATE-premium-0-user123-abcdefabcdef"))) 0 rfl).1

/-- C9 counterexample: outside production, an unconfigured secret falls back
to the built-in development secret and `generateToken` succeeds instead of
failing with the configuration error. -/
theorem generate_requires_secret_cex :
    Token.effectiveSecret false [] = Token.devFallbackSecret
    ∧ (Token.generateToken (Token.effectiveSecret false []) 1 (jstr "u")
        (jstr "premium")).isOk = true := by
  constructor
  · rfl
  · rw [Token.generateToken, if_neg (by decide)]
    rfl

/-- C9 (amended): with the secret unconfigured, `generateToken` fails with
the configuration error exactly in production, where the effective secret is
empty; in development the non-empty dev fallback secret is used and
generation succeeds. -/
theorem generate_requires_secret (now : Nat) (uid tier : List Char) :
    Token.effectiveSecret true [] = []
    ∧ Token.generateToken (Token.effectiveSecret true []) now uid tier
        = Except.error Token.configErrorMessage
    ∧ Token.effectiveSecret false [] = Token.devFallbackSecret
    ∧ (Token.generateToken (Token.effectiveSecret false []) now uid tier).isOk = true := by
  refine ⟨rfl, ?_, rfl, ?_⟩
  · rw [show Token.effectiveSecret true [] = [] from rfl, Token.generateToken, if_pos rfl]
  · rw [Token.generateToken, if_neg (by decide)]
    rfl

/-- C1 counterexample: a non-empty subjectId containing the delimiter
("a-b") breaks the round trip — the generated token splits into six fields
and parsing rejects it as malformed. -/
theorem generate_parse_roundtrip_cex :
    (jstr "s" ≠ [] ∧ jstr "a-b" ≠ [] ∧ jstr "premium" ∈ Token.validTiers)
    ∧ (Token.generateToken (jstr "s") 0 (jstr "a-b") (jstr "premium")).map
        (Token.parseToken (jstr "s") 0)
      = Except.ok (Except.error Token.ParseFailure.malformedToken) := by decide

/-- C1 (amended): for every non-empty secret, every non-empty subjectId
that does not contain the field delimiter, and every tier of the closed
enumeration, parsing the freshly generated token succeeds and returns the
same subjectId and the (already lower-case) tier. -/
theorem generate_parse_roundtrip (secret subjectId tier : List Char) (now : Nat)
    (hsec : secret ≠ []) (hid : subjectId ≠ []) (hnd : '-' ∉ subjectId)
    (ht : tier ∈ Token.validTiers) :
    ∃ tok, Token.generateToken secret now subjectId tier = Except.ok tok ∧
      Token.parseToken secret now tok = Except.ok
        { userId := subjectId, tier := tier, issuedAt := (now : Int),
          expiresAt := (now : Int) + 31536000000 } := by
  have htf := validTiers_facts tier ht
  refine ⟨Token.assembleToken tier (natToBase36 now) subjectId
      (Token.truncatedSignature secret (Token.dataToSign tier (natToBase36 now) subjectId)),
    ?_, ?_⟩
  · simp only [Token.generateToken]
    rw [if_neg hsec]
  · rw [parseToken_assembled secret now tier (natToBase36 now) subjectId _
      htf.1 (natToBase36_no_dash now) hnd (truncatedSignature_no_dash _ _)]
    rw [if_neg (not_not_intro (by rw [htf.2]; exact ht))]
    simp only [parseIntBase36_natToBase36]
    rw [if_neg (by omega), if_neg (by simp [timingSafeEqual_refl]), htf.2]

/-- Witness for C1: the amended round trip at a concrete secret, subject
and tier. -/
theorem generate_parse_roundtrip_witness :
    ∃ tok, Token.generateToken (jstr "s") 0 (jstr "user123") (jstr "premium") = Except.ok tok ∧
      Token.parseToken (jstr "s") 0 tok = Except.ok
        { userId := jstr "user123", tier := jstr "premium", issuedAt := ((0 : Nat) : Int),
          expiresAt := ((0 : Nat) : Int) + 31536000000 } :=
  generate_parse_roundtrip (jstr "s") (jstr "user123") (jstr "premium") 0
    (by decide) (by decide) (by decide) (by decide)

/-- C2: on a token that reaches the signature stage, the parse fails with
the invalid-signature error exactly when the provided signature's bytes
differ from the independently recomputed 12-hex-character truncation
(length mismatch included), and the cost of the guarded constant-time
comparison — one length check plus, on agreeing lengths, a full pass over
all byte pairs — depends only on the two buffer lengths, never on the
position of the first mismatch. -/
theorem signature_comparison_ct (secret : List Char) (now : Nat) (tier ts uid sig : List Char)
    (h1 : '-' ∉ tier) (h2 : '-' ∉ ts) (h3 : '-' ∉ uid) (h4 : '-' ∉ sig)
    (htier : jsToLower tier ∈ Token.validTiers)
    (v : Int) (hts : parseIntBase36 ts = some v)
    (hexp : ¬ (now : Int) > v + 31536000000) :
    (Token.parseToken secret now (Token.assembleToken tier ts uid sig)
        = Except.error Token.ParseFailure.invalidSignature ↔
      strUtf8 sig ≠ strUtf8 (Token.truncatedSignature secret (Token.dataToSign tier ts uid)))
    ∧ (∀ pb eb pb' eb' : List Nat, pb.length = pb'.length → eb.length = eb'.length →
        Crypto.signatureCompareCost pb eb = Crypto.signatureCompareCost pb' eb') := by
  constructor
  · rw [parseToken_assembled secret now tier ts uid sig h1 h2 h3 h4,
      if_neg (not_not_intro htier), hts]
    simp only [if_neg hexp]
    by_cases hc : strUtf8 sig ≠
        strUtf8 (Token.truncatedSignature secret (Token.dataToSign tier ts uid))
    · rw [if_pos (sig_mismatch_iff.mpr hc)]
      simp [hc]
    · rw [if_neg (fun hcond => hc (sig_mismatch_iff.mp hcond))]
      simp [hc]
  · exact fun pb eb pb' eb' hp he => signatureCompareCost_only_lengths pb eb pb' eb' hp he

/-- Witness for C2: the signature-stage equivalence at a concrete
unexpired token whose signature field is wrong. -/
theorem signature_comparison_ct_witness :
    (Token.parseToken (jstr "s") 0 (Token.assembleToken (jstr "premium") (jstr "0") (jstr "u")
          (jstr "x"))
        = Except.error Token.ParseFailure.invalidSignature ↔
      strUtf8 (jstr "x") ≠ strUtf8 (Token.truncatedSignature (jstr "s")
        (Token.dataToSign (jstr "premium") (jstr "0") (jstr "u"))))
    ∧ (∀ pb eb pb' eb' : List Nat, pb.length = pb'.length → eb.length = eb'.length →
        Crypto.signatureCompareCost pb eb = Crypto.signatureCompareCost pb' eb') :=
  signature_comparison_ct (jstr "s") 0 (jstr "premium") (jstr "0") (jstr "u") (jstr "x")
    (by decide) (by decide) (by decide) (by decide) (by decide) 0 (by decide) (by decide)

/-- C3: `parseToken` applies its checks in the fixed order structural,
tier, timestamp, expiry, signature, and reports the failure kind of the
first failing check; in particular an expired token is rejected as Expired
whatever its signature field holds, and only tokens passing every earlier
stage are judged by the signature. -/
theorem parse_check_order (secret token : List Char) (now : Nat) :
    ((splitDash token).length ≠ 5 ∨ (splitDash token).getD 0 [] ≠ jstr "AFKMATE" →
      parseKind (Token.parseToken secret now token) = some .MalformedToken)
    ∧ ((splitDash token).length = 5 → (splitDash token).getD 0 [] = jstr "AFKMATE" →
        jsToLower ((splitDash token).getD 1 []) ∉ Token.validTiers →
        parseKind (Token.parseToken secret now token) = some .InvalidTier)
    ∧ ((splitDash token).length = 5 → (splitDash token).getD 0 [] = jstr "AFKMATE" →
        jsToLower ((splitDash token).getD 1 []) ∈ Token.validTiers →
        parseIntBase36 ((splitDash token).getD 2 []) = none →
        parseKind (Token.parseToken secret now token) = some .InvalidTimestamp)
    ∧ (∀ v : Int, (splitDash token).length = 5 → (splitDash token).getD 0 [] = jstr "AFKMATE" →
        jsToLower ((splitDash token).getD 1 []) ∈ Token.validTiers →
        parseIntBase36 ((splitDash token).getD 2 []) = some v →
        (now : Int) > v + 31536000000 →
        parseKind (Token.parseToken secret now token) = some .Expired)
    ∧ (∀ v : Int, (splitDash token).length = 5 → (splitDash token).getD 0 [] = jstr "AFKMATE" →
        jsToLower ((splitDash token).getD 1 []) ∈ Token.validTiers →
        parseIntBase36 ((splitDash token).getD 2 []) = some v →
        ¬ (now : Int) > v + 31536000000 →
        (Token.parseToken secret now token = Except.error Token.ParseFailure.invalidSignature ↔
          strUtf8 ((splitDash token).getD 4 []) ≠
            strUtf8 (Token.truncatedSignature secret
              (Token.dataToSign ((splitDash token).getD 1 []) ((splitDash token).getD 2 [])
                ((splitDash token).getD 3 []))))) := by
  refine ⟨?_, ?_, ?_, ?_, ?_⟩
  · intro hcond
    by_cases htok : token = []
    · subst htok
      rfl
    · simp only [Token.parseToken]
      rw [if_neg htok, if_pos hcond]
      rfl
  · intro h5 hmagic htier
    obtain ⟨p0, p1, p2, p3, p4, hsplit⟩ := list_len5 h5
    rw [hsplit] at hmagic htier
    simp only [List.getD_cons_zero, List.getD_cons_succ] at hmagic htier
    rw [parseToken_five_fields secret now token p0 p1 p2 p3 p4 hsplit hmagic, if_pos htier]
    rfl
  · intro h5 hmagic htier hts
    obtain ⟨p0, p1, p2, p3, p4, hsplit⟩ := list_len5 h5
    rw [hsplit] at hmagic htier hts
    simp only [List.getD_cons_zero, List.getD_cons_succ] at hmagic htier hts
    rw [parseToken_five_fields secret now token p0 p1 p2 p3 p4 hsplit hmagic,
      if_neg (not_not_intro htier), hts]
    rfl
  · intro v h5 hmagic htier hts hexp
    obtain ⟨p0, p1, p2, p3, p4, hsplit⟩ := list_len5 h5
    rw [hsplit] at hmagic htier hts
    simp only [List.getD_cons_zero, List.getD_cons_succ] at hmagic htier hts
    rw [parseToken_five_fields secret now token p0 p1 p2 p3 p4 hsplit hmagic,
      if_neg (not_not_intro htier), hts]
    simp only [if_pos hexp]
    rfl
  · intro v h5 hmagic htier hts hexp
    obtain ⟨p0, p1, p2, p3, p4, hsplit⟩ := list_len5 h5
    rw [hsplit] at hmagic htier hts ⊢
    simp only [List.getD_cons_zero, List.getD_cons_succ] at hmagic htier hts ⊢
    rw [parseToken_five_fields secret now token p0 p1 p2 p3 p4 hsplit hmagic,
      if_neg (not_not_intro htier), hts]
    simp only [if_neg hexp]
    by_cases hc : strUtf8 p4 ≠
        strUtf8 (Token.truncatedSignature secret (Token.dataToSign p1 p2 p3))
    · rw [if_pos (sig_mismatch_iff.mpr hc)]
      simp [hc]
    · rw [if_neg (fun hcond => hc (sig_mismatch_iff.mp hcond))]
      simp [hc]

/-- Witness for C3: the expiry clause at a concrete aged token with a
garbage signature field — rejected as Expired, not InvalidSignature. -/
theorem parse_check_order_witness :
    parseKind (Token.parseToken (jstr "s") 99999999999999 (jstr "AFKMATE-premium-0-u-x"))
      = some Token.FailureKind.Expired :=
  (parse_check_order (jstr "s") (jstr "AFKMATE-premium-0-u-x") 99999999999999).2.2.2.1
    0 (by decide) (by decide) (by decide) (by decide) (by decide)

/-- C10: the HMAC is recomputed over the tier exactly as presented, so if a
token is accepted, the same token with the tier's letter-case altered
(producing distinct signed data whose truncated HMAC differs) is rejected
with the invalid-signature error rather than accepted. -/
theorem tier_case_bound_by_signature (secret : List Char) (now : Nat)
    (tier tier' ts uid sig : List Char) (p : Token.TokenPayload)
    (h1 : '-' ∉ tier) (h1' : '-' ∉ tier') (h2 : '-' ∉ ts) (h3 : '-' ∉ uid) (h4 : '-' ∉ sig)
    (hacc : Token.parseToken secret now (Token.assembleToken tier ts uid sig) = Except.ok p)
    (hvar : jsToLower tier' = jsToLower tier) (hne : tier' ≠ tier)
    (hcoll : Token.truncatedSignature secret (Token.dataToSign tier' ts uid)
      ≠ Token.truncatedSignature secret (Token.dataToSign tier ts uid)) :
    Token.parseToken secret now (Token.assembleToken tier' ts uid sig)
      = Except.error Token.ParseFailure.invalidSignature := by
  rw [parseToken_assembled secret now tier ts uid sig h1 h2 h3 h4] at hacc
  by_cases htier : jsToLower tier ∈ Token.validTiers
  case neg =>
    rw [if_pos htier] at hacc
    exact Except.noConfusion hacc
  rw [if_neg (not_not_intro htier)] at hacc
  cases hts : parseIntBase36 ts with
  | none =>
    simp only [hts] at hacc
    exact Except.noConfusion hacc
  | some v =>
    simp only [hts] at hacc
    by_cases hexp : (now : Int) > v + 31536000000
    case pos =>
      rw [if_pos hexp] at hacc
      exact Except.noConfusion hacc
    rw [if_neg hexp] at hacc
    by_cases hcond : (strUtf8 sig).length ≠
        (strUtf8 (Token.truncatedSignature secret (Token.dataToSign tier ts uid))).length ∨
        Crypto.timingSafeEqual (strUtf8 sig)
          (strUtf8 (Token.truncatedSignature secret (Token.dataToSign tier ts uid))) = false
    case pos =>
      rw [if_pos hcond] at hacc
      exact Except.noConfusion hacc
    have hbytes : strUtf8 sig
        = strUtf8 (Token.truncatedSignature secret (Token.dataToSign tier ts uid)) :=
      not_not.mp (fun hneq => hcond (sig_mismatch_iff.mpr hneq))
    rw [parseToken_assembled secret now tier' ts uid sig h1' h2 h3 h4,
      if_neg (not_not_intro (by rw [hvar]; exact htier))]
    simp only [hts]
    rw [if_neg hexp]
    have hne' : strUtf8 sig
        ≠ strUtf8 (Token.truncatedSignature secret (Token.dataToSign tier' ts uid)) := by
      intro heq
      apply hcoll
      refine strUtf8_inj_ascii (fun c hc => (truncatedSignature_chars hc).2)
        (fun c hc => (truncatedSignature_chars hc).2) ?_
      rw [← heq, hbytes]
    rw [if_pos (sig_mismatch_iff.mpr hne')]

/-- Witness for C10: a token signed over tier "premium" is accepted, the
truncated HMAC over "Premium" differs, and the case-variant token is
rejected with the invalid-signature error. -/
theorem tier_case_bound_by_signature_witness :
    Token.parseToken (jstr "s") 0
        (Token.assembleToken (jstr "Premium") (jstr "0") (jstr "u")
          (Token.truncatedSignature (jstr "s")
            (Token.dataToSign (jstr "premium") (jstr "0") (jstr "u"))))
      = Except.error Token.ParseFailure.invalidSignature :=
  tier_case_bound_by_signature (jstr "s") 0 (jstr "premium") (jstr "Premium") (jstr "0")
    (jstr "u")
    (Token.truncatedSignature (jstr "s") (Token.dataToSign (jstr "premium") (jstr "0") (jstr "u")))
    { userId := jstr "u", tier := jstr "premium", issuedAt := 0, expiresAt := 31536000000 }
    (by decide) (by decide) (by decide) (by decide)
    (truncatedSignature_no_dash (jstr "s") (Token.dataToSign (jstr "premium") (jstr "0") (jstr "u")))
    (by decide) (by decide) (by decide) (by decide)

end EcoSpace
